import Mathlib

/-!
Shallow embedding of the memory-game state engine of robgon-art/simple-memo-game.

The engine is a set of pure functions over an immutable `GameState`:
`selectCard`/`revealCard` (card-selection.ts, models/game-state.ts),
`processMatches`/`checkForMatches` (match-checking.ts, models/game-state.ts),
`clearSelectedCards`/`hideUnmatchedCards`, `setPreviewMode`, `initializeGame`,
`initializeGameWithProgress`, `resetGameState` and the Fisher-Yates shuffles
(shuffle.ts).  Every definition below is translated from the corresponding
TypeScript function; randomness (`Math.random`, the image picker) is made
explicit as an oracle parameter, and JS arrays become `List`.
-/

namespace MemoGame

/-- Game status enum of models/game-state.ts (current four-state model). -/
inductive GameStatus
  | READY
  | IN_PROGRESS
  | VICTORY_MUSIC
  | COMPLETED
deriving DecidableEq, Repr

/-- Card style configuration field of GameState. -/
inductive CardStyle
  | impressionist
  | robgon
deriving DecidableEq, Repr

/-- Grid size configuration field of GameState. -/
inductive GridSize
  | easy
  | hard
deriving DecidableEq, Repr

/-- Card model of models/game-state.ts. -/
structure Card where
  id : Nat
  imageId : Nat
  isRevealed : Bool
  isMatched : Bool
deriving DecidableEq, Repr

/-- CardImage record of managers/image-manager.ts. -/
structure CardImage where
  id : Nat
  name : String
  path : String
deriving DecidableEq, Repr

/-- GameState model of models/game-state.ts (current model). -/
structure GameState where
  cards : List Card
  status : GameStatus
  moves : Nat
  selectedCardIds : List Nat
  isPreviewMode : Bool
  cardStyle : CardStyle
  gridSize : GridSize
deriving DecidableEq, Repr

/-- JS `state.cards.find(card => card.id === cardId)`. -/
def findCard (cards : List Card) (cardId : Nat) : Option Card :=
  cards.find? (fun c => c.id == cardId)

/-- `selectCard` of functions/card-selection.ts; the engine `revealCard` of
models/game-state.ts is the same function (identical guards and updates). -/
def selectCard (state : GameState) (cardId : Nat) : GameState :=
  if 2 ≤ state.selectedCardIds.length then state
  else
    match findCard state.cards cardId with
    | none => state
    | some targetCard =>
      if targetCard.isMatched || targetCard.isRevealed then state
      else
        let updatedCards := state.cards.map fun c =>
          if c.id == cardId then { c with isRevealed := true } else c
        let updatedSelectedCardIds := state.selectedCardIds ++ [cardId]
        let updatedMoves :=
          if updatedSelectedCardIds.length == 2 then state.moves + 1 else state.moves
        { state with
            cards := updatedCards
            selectedCardIds := updatedSelectedCardIds
            moves := updatedMoves }

/-- `canSelectCard` of functions/card-selection.ts. -/
def canSelectCard (state : GameState) (cardId : Nat) : Bool :=
  if 2 ≤ state.selectedCardIds.length then false
  else
    match findCard state.cards cardId with
    | none => false
    | some c => !c.isMatched && !c.isRevealed

/-- `clearSelectedCards` of functions/card-selection.ts: unconditionally hides
every revealed unmatched card and clears the selection (no length guard). -/
def clearSelectedCards (state : GameState) : GameState :=
  { state with
      cards := state.cards.map fun c =>
        if c.isRevealed && !c.isMatched then { c with isRevealed := false } else c
      selectedCardIds := [] }

/-- `hideUnmatchedCards` of models/game-state.ts: same card update as
`clearSelectedCards` but guarded by `selectedCardIds.length !== 2`. -/
def hideUnmatchedCards (state : GameState) : GameState :=
  if state.selectedCardIds.length ≠ 2 then state
  else
    { state with
        cards := state.cards.map fun c =>
          if c.isRevealed && !c.isMatched then { c with isRevealed := false } else c
        selectedCardIds := [] }

/-- `doSelectedCardsMatch` of functions/match-checking.ts. -/
def doSelectedCardsMatch (state : GameState) : Bool :=
  match state.selectedCardIds with
  | [firstCardId, secondCardId] =>
    match findCard state.cards firstCardId, findCard state.cards secondCardId with
    | some firstCard, some secondCard => firstCard.imageId == secondCard.imageId
    | _, _ => false
  | _ => false

/-- `areAllCardsMatched` of functions/match-checking.ts. -/
def areAllCardsMatched (state : GameState) : Bool :=
  state.cards.all (fun c => c.isMatched)

/-- `processMatches` of functions/match-checking.ts (audio side effects have no
bearing on the returned state and are omitted). -/
def processMatches (state : GameState) : GameState :=
  if state.selectedCardIds.length ≠ 2 then state
  else
    let isMatch := doSelectedCardsMatch state
    let updatedCards := state.cards.map fun c =>
      if isMatch && state.selectedCardIds.contains c.id then { c with isMatched := true } else c
    let allMatched := updatedCards.all (fun c => c.isMatched)
    { state with
        cards := updatedCards
        status := if allMatched then GameStatus.COMPLETED else state.status
        selectedCardIds := if isMatch then [] else state.selectedCardIds }

/-- `checkForMatches` of models/game-state.ts: like `processMatches` but looks
the two cards up directly, updates only cards whose id equals one of the two
selected ids, and moves to `VICTORY_MUSIC` when every card is matched. -/
def checkForMatches (state : GameState) : GameState :=
  match state.selectedCardIds with
  | [firstCardId, secondCardId] =>
    match findCard state.cards firstCardId, findCard state.cards secondCardId with
    | some firstCard, some secondCard =>
      let isMatch := firstCard.imageId == secondCard.imageId
      let updatedCards := state.cards.map fun c =>
        if c.id == firstCardId || c.id == secondCardId then
          (if isMatch then { c with isMatched := true } else c)
        else c
      let allMatched := updatedCards.all (fun c => c.isMatched)
      { state with
          cards := updatedCards
          status := if allMatched then GameStatus.VICTORY_MUSIC else state.status
          selectedCardIds := if isMatch then [] else state.selectedCardIds }
    | _, _ => state
  | _ => state

/-- `setPreviewMode` of models/game-state.ts. -/
def setPreviewMode (state : GameState) (isPreview : Bool) : GameState :=
  { state with
      isPreviewMode := isPreview
      cards := state.cards.map fun c =>
        { c with isRevealed := if isPreview then true else c.isRevealed } }

/-- Helper of `createCards` (models/game-state.ts): the `forEach` with index. -/
def createCardsAux : Nat → List CardImage → List Card
  | _, [] => []
  | index, image :: rest =>
    { id := index * 2 + 1, imageId := image.id, isRevealed := false, isMatched := false } ::
    { id := index * 2 + 2, imageId := image.id, isRevealed := false, isMatched := false } ::
    createCardsAux (index + 1) rest

/-- `createCards` of models/game-state.ts: two cards per image, sequential ids. -/
def createCards (images : List CardImage) : List Card :=
  createCardsAux 0 images

/-- JS `shuffleFunction ? shuffleFunction(cards) : cards`. -/
def applyShuffle (shuffleFunction : Option (List Card → List Card)) (cards : List Card) :
    List Card :=
  match shuffleFunction with
  | some f => f cards
  | none => cards

/-- `initializeGame` of models/game-state.ts.  The call
`imageManager.getRandomCardImages(totalPairs)` draws from a random image pool;
it is modelled by the explicit oracle `pick`. -/
def initializeGame (pick : Nat → List CardImage) (totalPairs : Nat)
    (shuffleFunction : Option (List Card → List Card)) : GameState :=
  let selectedImages := pick totalPairs
  let cards := createCards selectedImages
  let shuffledCards := applyShuffle shuffleFunction cards
  { cards := shuffledCards
    status := GameStatus.READY
    moves := 0
    selectedCardIds := []
    isPreviewMode := false
    cardStyle := CardStyle.impressionist
    gridSize := GridSize.easy }

/-- First-occurrence deduplication: JS `Array.from(new Set(xs))`. -/
def dedupFirst : List Nat → List Nat
  | [] => []
  | a :: l => a :: dedupFirst (l.filter (fun x => x != a))
termination_by l => l.length
decreasing_by
  simp only [List.length_cons]
  exact Nat.lt_succ_of_le (List.length_filter_le _ _)

/-- `initializeGameWithProgress` of models/game-state.ts.  `progress` is
`number | null`; the JS guard `progress && progress > 0 && progress <= totalPairs`
is the positivity-and-bound test below. -/
def initializeGameWithProgress (pick : Nat → List CardImage) (totalPairs : Nat)
    (progress : Option Int) (shuffleFunction : Option (List Card → List Card)) : GameState :=
  let initialState := initializeGame pick totalPairs shuffleFunction
  match progress with
  | none => initialState
  | some p =>
    if 0 < p ∧ p ≤ (totalPairs : Int) then
      let uniqueImageIds := dedupFirst (initialState.cards.map Card.imageId)
      let imageIdsToMatch := uniqueImageIds.take p.toNat
      let updatedCards := initialState.cards.map fun c =>
        if imageIdsToMatch.contains c.imageId then
          { c with isMatched := true, isRevealed := true }
        else c
      { initialState with
          cards := updatedCards
          moves := p.toNat
          status :=
            if p = (totalPairs : Int) then GameStatus.VICTORY_MUSIC
            else GameStatus.IN_PROGRESS
          isPreviewMode := false
          cardStyle := CardStyle.impressionist
          gridSize := GridSize.easy }
    else initialState

/-- `resetGameState` of functions/game-state-update.ts (current version): a
fresh `initializeGame` for `state.cards.length / 2` pairs, status `READY`. -/
def resetGameState (state : GameState) (pick : Nat → List CardImage)
    (shuffleFunction : Option (List Card → List Card)) : GameState :=
  let totalPairs := state.cards.length / 2
  { initializeGame pick totalPairs shuffleFunction with status := GameStatus.READY }

/-- Error taxonomy of the spec. -/
inductive GameError
  | invalidPairCount
deriving DecidableEq, Repr

/-- Modelled from the spec: the current `imageManager.getRandomCardImages`
implementation is missing from the repository (only its unit test survives,
which shows it throws when more pairs are requested than images exist), so the
failure path of `initializeGame` cannot be read off the source.  Per the spec,
deck/game initialization "Fails with `InvalidPairCount` if `pairCount` is
outside the supported range (reference range: 2-12)". -/
def initializeGameChecked (pick : Nat → List CardImage) (totalPairs : Nat)
    (shuffleFunction : Option (List Card → List Card)) : Except GameError GameState :=
  if 2 ≤ totalPairs ∧ totalPairs ≤ 12 then
    Except.ok (initializeGame pick totalPairs shuffleFunction)
  else
    Except.error GameError.invalidPairCount

/-- Swap of two positions of a list; JS array destructuring swap
`[a[i], a[j]] = [a[j], a[i]]`.  Out-of-range indices leave the list unchanged
(they never occur in the shuffle loops). -/
def swapNth {α : Type} (l : List α) (i j : Nat) : List α :=
  match l[i]?, l[j]? with
  | some a, some b => (l.set i b).set j a
  | _, _ => l

/-- The Fisher-Yates loop of shuffle.ts: `for (i = n-1; i > 0; i--)` with
`j = Math.floor(random() * (i+1))`.  `rand i` is the oracle for the random
draw at index `i`; reduction mod `i+1` reflects that the drawn index lies in
`[0, i]`. -/
def fyLoop {α : Type} (rand : Nat → Nat) : List α → Nat → List α
  | l, 0 => l
  | l, i + 1 => fyLoop rand (swapNth l (i + 1) (rand (i + 1) % (i + 2))) i

/-- `shuffleCards` of functions/shuffle.ts, with `Math.random` as oracle. -/
def shuffleCards (rand : Nat → Nat) (cards : List Card) : List Card :=
  fyLoop rand cards (cards.length - 1)

/-- The seed update of `seededRandom` in functions/shuffle.ts:
`seed = (seed * 9301 + 49297) % 233280`. -/
def nextSeed (seed : Nat) : Nat := (seed * 9301 + 49297) % 233280

/-- `Math.floor(seededRandom(max))` where `seededRandom(max)` is
`(seed / 233280) * max`, computed in exact arithmetic. -/
def seededIndex (seed max : Nat) : Nat := seed * max / 233280

/-- The seeded Fisher-Yates loop of `seededShuffleCards`, threading the
mutable `seed` variable of the JS closure explicitly. -/
def seededLoop : List Card → Nat → Nat → List Card
  | l, _, 0 => l
  | l, seed, i + 1 =>
    let s2 := nextSeed seed
    seededLoop (swapNth l (i + 1) (seededIndex s2 (i + 2))) s2 i

/-- `seededShuffleCards` of functions/shuffle.ts. -/
def seededShuffleCards (cards : List Card) (seed : Nat) : List Card :=
  seededLoop cards seed (cards.length - 1)

/-! ### Permutation lemmas for the Fisher-Yates swaps -/

/-- Replacing position `j` (holding `b`) by `x` and re-adding `b` in front is a
permutation of adding `x` in front. -/
theorem cons_set_perm {α : Type} :
    ∀ (l : List α) (j : Nat) (b x : α), l[j]? = some b →
      List.Perm (b :: l.set j x) (x :: l) := by
  intro l
  induction l with
  | nil => intro j b x h; simp at h
  | cons c t ih =>
    intro j b x h
    cases j with
    | zero =>
      simp only [List.getElem?_cons_zero, Option.some_inj] at h
      subst h
      simp only [List.set_cons_zero]
      exact List.Perm.swap x c t
    | succ j =>
      simp only [List.getElem?_cons_succ] at h
      simp only [List.set_cons_succ]
      exact ((List.Perm.swap c b _).trans ((ih j b x h).cons c)).trans
        (List.Perm.swap x c t)

/-- The double `set` performed by a swap is a permutation. -/
theorem set_set_swap_perm {α : Type} :
    ∀ (l : List α) (i j : Nat) (a b : α), l[i]? = some a → l[j]? = some b →
      List.Perm ((l.set i b).set j a) l := by
  intro l
  induction l with
  | nil => intro i j a b hi _; simp at hi
  | cons c t ih =>
    intro i j a b hi hj
    cases i with
    | zero =>
      simp only [List.getElem?_cons_zero, Option.some_inj] at hi
      subst hi
      cases j with
      | zero =>
        simp only [List.getElem?_cons_zero, Option.some_inj] at hj
        subst hj
        simp only [List.set_cons_zero]
        exact List.Perm.refl _
      | succ j =>
        simp only [List.getElem?_cons_succ] at hj
        simp only [List.set_cons_zero, List.set_cons_succ]
        exact cons_set_perm t j b c hj
    | succ i =>
      simp only [List.getElem?_cons_succ] at hi
      cases j with
      | zero =>
        simp only [List.getElem?_cons_zero, Option.some_inj] at hj
        subst hj
        simp only [List.set_cons_succ, List.set_cons_zero]
        exact cons_set_perm t i a c hi
      | succ j =>
        simp only [List.getElem?_cons_succ] at hj
        simp only [List.set_cons_succ]
        exact (ih i j a b hi hj).cons c

/-- `swapNth` always returns a permutation of its input. -/
theorem swapNth_perm {α : Type} (l : List α) (i j : Nat) :
    List.Perm (swapNth l i j) l := by
  unfold swapNth
  split
  next a b hi hj => exact set_set_swap_perm l i j a b hi hj
  next => exact List.Perm.refl l

/-- Every pass of the Fisher-Yates loop permutes the list. -/
theorem fyLoop_perm {α : Type} (rand : Nat → Nat) :
    ∀ (i : Nat) (l : List α), List.Perm (fyLoop rand l i) l := by
  intro i
  induction i with
  | zero => intro l; exact List.Perm.refl l
  | succ i ih =>
    intro l
    exact (ih _).trans (swapNth_perm l (i + 1) (rand (i + 1) % (i + 2)))

/-- `shuffleCards` permutes its input, for every random oracle. -/
theorem shuffleCards_perm (rand : Nat → Nat) (cards : List Card) :
    List.Perm (shuffleCards rand cards) cards :=
  fyLoop_perm rand (cards.length - 1) cards

/-- Claim C8: for every input array of cards and every behaviour of
`Math.random`, `shuffleCards` returns a permutation of the input: the ids of
the output are a rearrangement of the ids of the input (so sorting the two id
lists yields the same list), and the input itself is a value the function
never mutates. -/
theorem shuffleCards_preserves_ids (rand : Nat → Nat) (cards : List Card) :
    List.Perm ((shuffleCards rand cards).map Card.id) (cards.map Card.id) :=
  (shuffleCards_perm rand cards).map Card.id

/-- Claim C9: `seededShuffleCards` is deterministic: two calls with the same
input sequence and the same seed return identical output sequences. -/
theorem seededShuffleCards_deterministic (cards₁ cards₂ : List Card) (seed₁ seed₂ : Nat)
    (hc : cards₁ = cards₂) (hs : seed₁ = seed₂) :
    seededShuffleCards cards₁ seed₁ = seededShuffleCards cards₂ seed₂ := by
  rw [hc, hs]

/-- Concrete deck used by witnesses below. -/
def readyState : GameState :=
  { cards :=
      [ { id := 1, imageId := 1, isRevealed := false, isMatched := false },
        { id := 2, imageId := 1, isRevealed := false, isMatched := false },
        { id := 3, imageId := 2, isRevealed := false, isMatched := false },
        { id := 4, imageId := 2, isRevealed := false, isMatched := false } ]
    status := GameStatus.READY
    moves := 0
    selectedCardIds := []
    isPreviewMode := false
    cardStyle := CardStyle.impressionist
    gridSize := GridSize.easy }

/-- Witness for C9: repeated calls at a concrete deck and seed agree. -/
theorem seededShuffleCards_deterministic_witness :
    seededShuffleCards readyState.cards 42 = seededShuffleCards readyState.cards 42 :=
  seededShuffleCards_deterministic readyState.cards readyState.cards 42 42 rfl rfl

/-- Concrete image-picking oracle used by witnesses below. -/
def pickW : Nat → List CardImage :=
  fun n => (List.range n).map fun i => { id := i + 1, name := "", path := "" }

/-- Claim C2: `initializeGame` (with the spec-modelled pair-count validation
`initializeGameChecked`) fails with `InvalidPairCount` for every `pairCount`
outside 2-12 and succeeds, returning a `GameState`, for every `pairCount`
inside the range. -/
theorem initializeGameChecked_range (pick : Nat → List CardImage) (totalPairs : Nat)
    (sh : Option (List Card → List Card)) :
    (2 ≤ totalPairs → totalPairs ≤ 12 →
      initializeGameChecked pick totalPairs sh =
        Except.ok (initializeGame pick totalPairs sh)) ∧
    (totalPairs < 2 ∨ 12 < totalPairs →
      initializeGameChecked pick totalPairs sh =
        Except.error GameError.invalidPairCount) := by
  constructor
  · intro h1 h2
    unfold initializeGameChecked
    rw [if_pos ⟨h1, h2⟩]
  · intro h
    unfold initializeGameChecked
    rw [if_neg]
    rcases h with h | h
    · intro hc; omega
    · intro hc; omega

/-- Witness for C2: inside the range 5 pairs succeed, outside it 13 pairs fail. -/
theorem initializeGameChecked_range_witness :
    initializeGameChecked pickW 5 none = Except.ok (initializeGame pickW 5 none) ∧
    initializeGameChecked pickW 13 none = Except.error GameError.invalidPairCount :=
  ⟨(initializeGameChecked_range pickW 5 none).1 (by decide) (by decide),
   (initializeGameChecked_range pickW 13 none).2 (Or.inr (by decide))⟩

/-- Claim C3: `resetGameState` builds a brand-new game for
`pairCount = state.cards.length / 2`, discarding all prior progress: the
result is exactly `initializeGame` for that pair count with status `READY`,
moves `0` and empty selection. -/
theorem resetGameState_spec (s : GameState) (pick : Nat → List CardImage)
    (sh : Option (List Card → List Card)) :
    resetGameState s pick sh =
      { initializeGame pick (s.cards.length / 2) sh with status := GameStatus.READY } ∧
    (resetGameState s pick sh).status = GameStatus.READY ∧
    (resetGameState s pick sh).moves = 0 ∧
    (resetGameState s pick sh).selectedCardIds = [] :=
  ⟨rfl, rfl, rfl, rfl⟩

/-- Claim C1 counterexample: at a concrete READY state with a permitted reveal
(the target card exists, is unmatched, unrevealed, and no card is selected),
the engine `selectCard` does not return an IN_PROGRESS state. -/
theorem selectCard_ready_counterexample :
    readyState.status = GameStatus.READY ∧
    canSelectCard readyState 1 = true ∧
    (selectCard readyState 1).status ≠ GameStatus.IN_PROGRESS := by decide

/-- Claim C1 (amended): the engine `selectCard`/`revealCard` never changes the
status field; a permitted reveal from a READY state returns a state whose
status is still READY (the READY to IN_PROGRESS transition is performed by the
game-board component before it calls `selectCard`, not by the engine). -/
theorem selectCard_keeps_ready (s : GameState) (cardId : Nat)
    (h : s.status = GameStatus.READY) :
    (selectCard s cardId).status = GameStatus.READY := by
  have hstat : (selectCard s cardId).status = s.status := by
    unfold selectCard
    split
    next => rfl
    next =>
      split
      next => rfl
      next =>
        split
        next => rfl
        next => rfl
  rw [hstat, h]

/-- Witness for C1 (amended): a permitted reveal at the concrete READY state
keeps the status READY. -/
theorem selectCard_keeps_ready_witness :
    (selectCard readyState 1).status = GameStatus.READY :=
  selectCard_keeps_ready readyState 1 (by decide)

/-- Concrete state with one selected revealed unmatched card. -/
def oneSelectedState : GameState :=
  { cards :=
      [ { id := 1, imageId := 1, isRevealed := true, isMatched := false },
        { id := 2, imageId := 1, isRevealed := false, isMatched := false } ]
    status := GameStatus.IN_PROGRESS
    moves := 0
    selectedCardIds := [1]
    isPreviewMode := false
    cardStyle := CardStyle.impressionist
    gridSize := GridSize.easy }

/-- Claim C4 counterexample: `clearSelectedCards` is not a no-op on a concrete
state whose `selectedCardIds` has one entry (length differs from 2): it hides
the revealed unmatched card and clears the selection. -/
theorem clearSelectedCards_counterexample :
    oneSelectedState.selectedCardIds.length ≠ 2 ∧
    clearSelectedCards oneSelectedState ≠ oneSelectedState := by decide

/-- Claim C4 (amended): `hideUnmatchedCards` is a no-op, returning its input
state unchanged, for every state in which `selectedCardIds` does not have
exactly 2 entries (in particular when nothing is selected); the differently
guarded `clearSelectedCards` of card-selection.ts is not equivalent to it: it
hides revealed unmatched cards and clears the selection unconditionally. -/
theorem hideUnmatchedCards_noop (s : GameState)
    (h : s.selectedCardIds.length ≠ 2) :
    hideUnmatchedCards s = s := by
  unfold hideUnmatchedCards
  rw [if_pos h]

/-- Witness for C4 (amended): with nothing selected, `hideUnmatchedCards`
leaves the concrete state unchanged. -/
theorem hideUnmatchedCards_noop_witness :
    hideUnmatchedCards readyState = readyState :=
  hideUnmatchedCards_noop readyState (by decide)

/-- Claim C6: `selectCard`/`revealCard` returns its input state unchanged
whenever two cards are already selected, or the target card id does not exist
in the deck, or the target card is matched, or the target card is revealed. -/
theorem selectCard_noop (s : GameState) (cardId : Nat)
    (h : 2 ≤ s.selectedCardIds.length ∨
      findCard s.cards cardId = none ∨
      ∃ c, findCard s.cards cardId = some c ∧
        (c.isMatched = true ∨ c.isRevealed = true)) :
    selectCard s cardId = s := by
  unfold selectCard
  by_cases h2 : 2 ≤ s.selectedCardIds.length
  · rw [if_pos h2]
  · rw [if_neg h2]
    rcases h with h | h | ⟨c, hc, hflag⟩
    · exact absurd h h2
    · rw [h]
    · rw [hc]
      have hcond : (c.isMatched || c.isRevealed) = true := by
        rcases hflag with h | h <;> simp [h]
      simp [hcond]

/-- Concrete six-card deck matching the card-selection unit tests. -/
def sixCardState : GameState :=
  { cards :=
      [ { id := 1, imageId := 1, isRevealed := false, isMatched := false },
        { id := 2, imageId := 1, isRevealed := false, isMatched := false },
        { id := 3, imageId := 2, isRevealed := false, isMatched := false },
        { id := 4, imageId := 2, isRevealed := false, isMatched := false },
        { id := 5, imageId := 3, isRevealed := false, isMatched := false },
        { id := 6, imageId := 3, isRevealed := false, isMatched := false } ]
    status := GameStatus.IN_PROGRESS
    moves := 0
    selectedCardIds := []
    isPreviewMode := false
    cardStyle := CardStyle.impressionist
    gridSize := GridSize.easy }

/-- Witness for C6: after two reveals of distinct unrevealed cards, a third
`selectCard` call leaves the state unchanged. -/
theorem selectCard_noop_witness :
    selectCard (selectCard (selectCard sixCardState 1) 3) 5 =
      selectCard (selectCard sixCardState 1) 3 :=
  selectCard_noop (selectCard (selectCard sixCardState 1) 3) 5 (Or.inl (by decide))

/-- Identity-relevant part of a card: its id and its imageId. -/
def cardKey (c : Card) : Nat × Nat := (c.id, c.imageId)

/-- Mapping a flag-only card update over a deck keeps every card key. -/
theorem map_cardKey_congr {f : Card → Card} (hf : ∀ c, cardKey (f c) = cardKey c) :
    ∀ l : List Card, (l.map f).map cardKey = l.map cardKey := by
  intro l
  induction l with
  | nil => rfl
  | cons c t ih => simp only [List.map_cons, hf c, ih]

/-- `selectCard` keeps the deck composition. -/
theorem selectCard_deckKey (s : GameState) (cardId : Nat) :
    ((selectCard s cardId).cards).map cardKey = s.cards.map cardKey := by
  unfold selectCard
  split
  next => rfl
  next =>
    split
    next => rfl
    next =>
      split
      next => rfl
      next =>
        exact map_cardKey_congr (fun c => by
          cases hc : (c.id == cardId) <;> simp [cardKey, hc]) s.cards

/-- `processMatches` keeps the deck composition. -/
theorem processMatches_deckKey (s : GameState) :
    ((processMatches s).cards).map cardKey = s.cards.map cardKey := by
  unfold processMatches
  split
  next => rfl
  next =>
    exact map_cardKey_congr (fun c => by
      cases hc : (doSelectedCardsMatch s && s.selectedCardIds.contains c.id) <;>
        simp [cardKey, hc]) s.cards

/-- `checkForMatches` keeps the deck composition. -/
theorem checkForMatches_deckKey (s : GameState) :
    ((checkForMatches s).cards).map cardKey = s.cards.map cardKey := by
  unfold checkForMatches
  split
  next firstCardId secondCardId _ =>
    split
    next firstCard secondCard _ _ =>
      exact map_cardKey_congr (fun c => by
        cases h1 : (c.id == firstCardId || c.id == secondCardId) <;>
          cases h2 : (firstCard.imageId == secondCard.imageId) <;>
            simp [cardKey, h1, h2]) s.cards
    next => rfl
  next => rfl

/-- `clearSelectedCards` keeps the deck composition. -/
theorem clearSelectedCards_deckKey (s : GameState) :
    ((clearSelectedCards s).cards).map cardKey = s.cards.map cardKey := by
  unfold clearSelectedCards
  exact map_cardKey_congr (fun c => by
    cases hc : (c.isRevealed && !c.isMatched) <;> simp [cardKey, hc]) s.cards

/-- `hideUnmatchedCards` keeps the deck composition. -/
theorem hideUnmatchedCards_deckKey (s : GameState) :
    ((hideUnmatchedCards s).cards).map cardKey = s.cards.map cardKey := by
  unfold hideUnmatchedCards
  split
  next => rfl
  next =>
    exact map_cardKey_congr (fun c => by
      cases hc : (c.isRevealed && !c.isMatched) <;> simp [cardKey, hc]) s.cards

/-- `setPreviewMode` keeps the deck composition. -/
theorem setPreviewMode_deckKey (s : GameState) (b : Bool) :
    ((setPreviewMode s b).cards).map cardKey = s.cards.map cardKey := by
  unfold setPreviewMode
  exact map_cardKey_congr (fun c => by cases b <;> simp [cardKey]) s.cards

/-- Claim C10: the transitions `selectCard`/`revealCard`,
`processMatches`/`checkForMatches`, `clearSelectedCards`/`hideUnmatchedCards`
and `setPreviewMode` never change the deck composition: the output deck has
the same length and order as the input deck and every card keeps its id and
imageId (only the boolean flags of cards and the non-card fields of the state
may differ). -/
theorem transitions_preserve_deck (s : GameState) (cardId : Nat) (b : Bool) :
    ((selectCard s cardId).cards).map cardKey = s.cards.map cardKey ∧
    ((processMatches s).cards).map cardKey = s.cards.map cardKey ∧
    ((checkForMatches s).cards).map cardKey = s.cards.map cardKey ∧
    ((clearSelectedCards s).cards).map cardKey = s.cards.map cardKey ∧
    ((hideUnmatchedCards s).cards).map cardKey = s.cards.map cardKey ∧
    ((setPreviewMode s b).cards).map cardKey = s.cards.map cardKey :=
  ⟨selectCard_deckKey s cardId, processMatches_deckKey s, checkForMatches_deckKey s,
   clearSelectedCards_deckKey s, hideUnmatchedCards_deckKey s, setPreviewMode_deckKey s b⟩

/-- Evaluation of `doSelectedCardsMatch` when exactly two selected cards are
present in the deck. -/
theorem doSelectedCardsMatch_eq (s : GameState) (a b : Nat) (ca cb : Card)
    (hsel : s.selectedCardIds = [a, b])
    (hfa : findCard s.cards a = some ca)
    (hfb : findCard s.cards b = some cb) :
    doSelectedCardsMatch s = (ca.imageId == cb.imageId) := by
  unfold doSelectedCardsMatch
  rw [hsel]
  simp [hfa, hfb]

/-- Membership form of `List.contains` on the selection list. -/
theorem contains_eq_true_of_mem {l : List Nat} {x : Nat} (h : x ∈ l) :
    l.contains x = true :=
  List.elem_iff.mpr h

/-- Claim C5: for every state with exactly two selected card ids present in
the deck (both revealed and unmatched, as the reveal flow guarantees, and the
game not already completed), `processMatches`: if the two cards share an
imageId it marks both matched while they remain revealed, clears
`selectedCardIds`, and moves the status to the completed/victory value exactly
when every card of the deck is then matched; if the imageIds differ it leaves
the deck unchanged (both cards stay revealed and unmatched) and leaves
`selectedCardIds` unchanged. -/
theorem processMatches_two_selected (s : GameState) (a b : Nat) (ca cb : Card)
    (hsel : s.selectedCardIds = [a, b])
    (hfa : findCard s.cards a = some ca)
    (hfb : findCard s.cards b = some cb)
    (hflags : ∀ c ∈ s.cards, c.id = a ∨ c.id = b →
      c.isRevealed = true ∧ c.isMatched = false)
    (hst : s.status ≠ GameStatus.COMPLETED) :
    (ca.imageId = cb.imageId →
      (∀ c ∈ (processMatches s).cards, c.id = a ∨ c.id = b →
        c.isMatched = true ∧ c.isRevealed = true) ∧
      (processMatches s).selectedCardIds = [] ∧
      ((processMatches s).status = GameStatus.COMPLETED ↔
        ∀ c ∈ (processMatches s).cards, c.isMatched = true)) ∧
    (ca.imageId ≠ cb.imageId →
      (processMatches s).cards = s.cards ∧
      (processMatches s).selectedCardIds = s.selectedCardIds ∧
      (∀ c ∈ (processMatches s).cards, c.id = a ∨ c.id = b →
        c.isRevealed = true ∧ c.isMatched = false)) := by
  have hdm := doSelectedCardsMatch_eq s a b ca cb hsel hfa hfb
  constructor
  · intro him
    have hm : doSelectedCardsMatch s = true := by rw [hdm, him]; exact beq_self_eq_true cb.imageId
    have hcards : (processMatches s).cards =
        s.cards.map (fun c =>
          if [a, b].contains c.id then { c with isMatched := true } else c) := by
      simp [processMatches, hsel, hm]
    have hstatus : (processMatches s).status =
        (if (s.cards.map (fun c =>
            if [a, b].contains c.id then { c with isMatched := true } else c)).all
              (fun c => c.isMatched)
          then GameStatus.COMPLETED else s.status) := by
      simp [processMatches, hsel, hm]
    refine ⟨?_, ?_, ?_⟩
    · intro c hc hid
      rw [hcards, List.mem_map] at hc
      obtain ⟨c0, h0, rfl⟩ := hc
      cases hcont : ([a, b].contains c0.id) with
      | false =>
        simp only [hcont, Bool.false_eq_true, if_false] at hid ⊢
        exfalso
        have hmem : c0.id ∈ [a, b] := by rcases hid with h | h <;> simp [h]
        have hct := contains_eq_true_of_mem hmem
        rw [hcont] at hct
        exact Bool.false_ne_true hct
      | true =>
        simp only [hcont, if_true] at hid ⊢
        have hfl := hflags c0 h0 hid
        simp [hfl.1]
    · simp [processMatches, hsel, hm]
    · constructor
      · intro h c hc
        rw [hcards] at hc
        by_cases hall : (s.cards.map (fun c =>
            if [a, b].contains c.id then { c with isMatched := true } else c)).all
              (fun c => c.isMatched) = true
        · exact List.all_eq_true.mp hall c hc
        · rw [hstatus, if_neg hall] at h
          exact absurd h hst
      · intro h
        have hall : (s.cards.map (fun c =>
            if [a, b].contains c.id then { c with isMatched := true } else c)).all
              (fun c => c.isMatched) = true := by
          refine List.all_eq_true.mpr (fun c hc => ?_)
          exact h c (by rw [hcards]; exact hc)
        rw [hstatus, if_pos hall]
  · intro him
    have hm : doSelectedCardsMatch s = false := by
      rw [hdm]; exact beq_eq_false_iff_ne.mpr him
    have hcards : (processMatches s).cards = s.cards := by
      simp [processMatches, hsel, hm]
    refine ⟨hcards, ?_, ?_⟩
    · simp [processMatches, hsel, hm]
    · intro c hc hid
      rw [hcards] at hc
      exact hflags c hc hid

/-- Concrete state with two matching selected cards, for the C5 witness. -/
def twoSelectedState : GameState :=
  { cards :=
      [ { id := 1, imageId := 1, isRevealed := true, isMatched := false },
        { id := 2, imageId := 1, isRevealed := true, isMatched := false },
        { id := 3, imageId := 2, isRevealed := false, isMatched := false },
        { id := 4, imageId := 2, isRevealed := false, isMatched := false } ]
    status := GameStatus.IN_PROGRESS
    moves := 1
    selectedCardIds := [1, 2]
    isPreviewMode := false
    cardStyle := CardStyle.impressionist
    gridSize := GridSize.easy }

/-- Witness for C5: processing the concrete matching pair marks both cards
matched and revealed, clears the selection, and the status is the completed
value exactly when every card is matched. -/
theorem processMatches_two_selected_witness :
    (∀ c ∈ (processMatches twoSelectedState).cards, c.id = 1 ∨ c.id = 2 →
      c.isMatched = true ∧ c.isRevealed = true) ∧
    (processMatches twoSelectedState).selectedCardIds = [] ∧
    ((processMatches twoSelectedState).status = GameStatus.COMPLETED ↔
      ∀ c ∈ (processMatches twoSelectedState).cards, c.isMatched = true) :=
  (processMatches_two_selected twoSelectedState 1 2
      { id := 1, imageId := 1, isRevealed := true, isMatched := false }
      { id := 2, imageId := 1, isRevealed := true, isMatched := false }
      (by decide) (by decide) (by decide) (by decide) (by decide)).1 (by decide)

/-! ### Reachability invariant: matched cards stay revealed -/

/-- Every matched card of the state is revealed. -/
def matchedImpliesRevealed (s : GameState) : Prop :=
  ∀ c ∈ s.cards, c.isMatched = true → c.isRevealed = true

/-- Every card whose id is selected is revealed. -/
def selectedCardsRevealed (s : GameState) : Prop :=
  ∀ i ∈ s.selectedCardIds, ∀ c ∈ s.cards, c.id = i → c.isRevealed = true

/-- Inductive invariant of the engine. -/
def Inv (s : GameState) : Prop :=
  matchedImpliesRevealed s ∧ selectedCardsRevealed s

/-- `selectCard` preserves the invariant. -/
theorem inv_selectCard (s : GameState) (cardId : Nat) (h : Inv s) :
    Inv (selectCard s cardId) := by
  obtain ⟨h1, h2⟩ := h
  unfold selectCard
  split
  next => exact ⟨h1, h2⟩
  next =>
    split
    next => exact ⟨h1, h2⟩
    next targetCard hfind =>
      split
      next => exact ⟨h1, h2⟩
      next hflag =>
        constructor
        · intro c hc hm
          simp only [List.mem_map] at hc
          obtain ⟨c0, h0, rfl⟩ := hc
          cases hcond : (c0.id == cardId) with
          | true => simp [hcond]
          | false =>
            simp only [hcond, Bool.false_eq_true, if_false] at hm ⊢
            exact h1 c0 h0 hm
        · intro i hi c hc hcid
          simp only [List.mem_append, List.mem_singleton] at hi
          simp only [List.mem_map] at hc
          obtain ⟨c0, h0, rfl⟩ := hc
          cases hcond : (c0.id == cardId) with
          | true => simp [hcond]
          | false =>
            simp only [hcond, Bool.false_eq_true, if_false] at hcid ⊢
            rcases hi with hi | hi
            · exact h2 i hi c0 h0 hcid
            · exfalso
              rw [hi] at hcid
              have hbeq : (c0.id == cardId) = true := beq_iff_eq.mpr hcid
              rw [hcond] at hbeq
              exact Bool.false_ne_true hbeq

/-- `processMatches` preserves the invariant. -/
theorem inv_processMatches (s : GameState) (h : Inv s) :
    Inv (processMatches s) := by
  obtain ⟨h1, h2⟩ := h
  unfold processMatches
  split
  next => exact ⟨h1, h2⟩
  next hlen =>
    constructor
    · intro c hc hm
      simp only [List.mem_map] at hc
      obtain ⟨c0, h0, rfl⟩ := hc
      cases hcond : (doSelectedCardsMatch s && s.selectedCardIds.contains c0.id) with
      | false =>
        simp only [hcond, Bool.false_eq_true, if_false] at hm ⊢
        exact h1 c0 h0 hm
      | true =>
        simp only [hcond, if_true] at hm ⊢
        have hcontains : s.selectedCardIds.contains c0.id = true :=
          ((Bool.and_eq_true _ _).mp hcond).2
        have hmem : c0.id ∈ s.selectedCardIds := List.elem_iff.mp hcontains
        exact h2 c0.id hmem c0 h0 rfl
    · intro i hi c hc hcid
      simp only [List.mem_map] at hc
      obtain ⟨c0, h0, rfl⟩ := hc
      cases hmatch : doSelectedCardsMatch s with
      | true =>
        simp only [hmatch, if_true] at hi
        exact absurd hi (List.not_mem_nil i)
      | false =>
        simp only [hmatch, Bool.false_eq_true, if_false] at hi
        simp only [hmatch, Bool.false_and, Bool.false_eq_true, if_false] at hcid ⊢
        exact h2 i hi c0 h0 hcid

/-- `checkForMatches` preserves the invariant. -/
theorem inv_checkForMatches (s : GameState) (h : Inv s) :
    Inv (checkForMatches s) := by
  obtain ⟨h1, h2⟩ := h
  unfold checkForMatches
  split
  next a b hsel =>
    split
    next ca cb hfa hfb =>
      constructor
      · intro c hc hm
        simp only [List.mem_map] at hc
        obtain ⟨c0, h0, rfl⟩ := hc
        cases hid : (c0.id == a || c0.id == b) with
        | false =>
          simp only [hid, Bool.false_eq_true, if_false] at hm ⊢
          exact h1 c0 h0 hm
        | true =>
          cases hmatch : (ca.imageId == cb.imageId) with
          | false =>
            simp only [hid, hmatch, Bool.false_eq_true, if_true, if_false] at hm ⊢
            exact h1 c0 h0 hm
          | true =>
            simp only [hid, hmatch, if_true] at hm ⊢
            have hid2 : c0.id = a ∨ c0.id = b := by simpa using hid
            have hmem : c0.id ∈ s.selectedCardIds := by
              rw [hsel]
              rcases hid2 with hx | hx <;> simp [hx]
            exact h2 c0.id hmem c0 h0 rfl
      · intro i hi c hc hcid
        simp only [List.mem_map] at hc
        obtain ⟨c0, h0, rfl⟩ := hc
        cases hmatch : (ca.imageId == cb.imageId) with
        | true =>
          simp only [hmatch, if_true] at hi
          exact absurd hi (List.not_mem_nil i)
        | false =>
          simp only [hmatch, Bool.false_eq_true, if_false] at hi
          simp only [hmatch, Bool.false_eq_true, if_false, ite_self] at hcid ⊢
          exact h2 i hi c0 h0 hcid
    next => exact ⟨h1, h2⟩
  next => exact ⟨h1, h2⟩

/-- `clearSelectedCards` preserves the invariant. -/
theorem inv_clearSelectedCards (s : GameState) (h : Inv s) :
    Inv (clearSelectedCards s) := by
  obtain ⟨h1, _⟩ := h
  unfold clearSelectedCards
  constructor
  · intro c hc hm
    simp only [List.mem_map] at hc
    obtain ⟨c0, h0, rfl⟩ := hc
    cases hcond : (c0.isRevealed && !c0.isMatched) with
    | false =>
      simp only [hcond, Bool.false_eq_true, if_false] at hm ⊢
      exact h1 c0 h0 hm
    | true =>
      simp only [hcond, if_true] at hm
      have hnm : (!c0.isMatched) = true := ((Bool.and_eq_true _ _).mp hcond).2
      rw [Bool.not_eq_true'] at hnm
      rw [hm] at hnm
      exact absurd hnm.symm Bool.false_ne_true
  · intro i hi
    exact absurd hi (List.not_mem_nil i)

/-- `hideUnmatchedCards` preserves the invariant. -/
theorem inv_hideUnmatchedCards (s : GameState) (h : Inv s) :
    Inv (hideUnmatchedCards s) := by
  obtain ⟨h1, h2⟩ := h
  unfold hideUnmatchedCards
  split
  next => exact ⟨h1, h2⟩
  next =>
    constructor
    · intro c hc hm
      simp only [List.mem_map] at hc
      obtain ⟨c0, h0, rfl⟩ := hc
      cases hcond : (c0.isRevealed && !c0.isMatched) with
      | false =>
        simp only [hcond, Bool.false_eq_true, if_false] at hm ⊢
        exact h1 c0 h0 hm
      | true =>
        simp only [hcond, if_true] at hm
        have hnm : (!c0.isMatched) = true := ((Bool.and_eq_true _ _).mp hcond).2
        rw [Bool.not_eq_true'] at hnm
        rw [hm] at hnm
        exact absurd hnm.symm Bool.false_ne_true
    · intro i hi
      exact absurd hi (List.not_mem_nil i)

/-- `setPreviewMode` preserves the invariant. -/
theorem inv_setPreviewMode (s : GameState) (bp : Bool) (h : Inv s) :
    Inv (setPreviewMode s bp) := by
  obtain ⟨h1, h2⟩ := h
  unfold setPreviewMode
  constructor
  · intro c hc hm
    simp only [List.mem_map] at hc
    obtain ⟨c0, h0, rfl⟩ := hc
    simp only at hm
    cases bp with
    | true => simp
    | false => simpa using h1 c0 h0 hm
  · intro i hi c hc hcid
    simp only [List.mem_map] at hc
    obtain ⟨c0, h0, rfl⟩ := hc
    simp only at hcid
    have := h2 i hi c0 h0 hcid
    cases bp with
    | true => simp
    | false => simpa using this

/-- Cards built by the deck factory carry cleared flags. -/
theorem createCardsAux_flags :
    ∀ (images : List CardImage) (n : Nat) (c : Card),
      c ∈ createCardsAux n images → c.isRevealed = false ∧ c.isMatched = false := by
  intro images
  induction images with
  | nil => intro n c hc; simp [createCardsAux] at hc
  | cons img rest ih =>
    intro n c hc
    simp only [createCardsAux, List.mem_cons] at hc
    rcases hc with rfl | rfl | hc
    · exact ⟨rfl, rfl⟩
    · exact ⟨rfl, rfl⟩
    · exact ih (n + 1) c hc

/-- `initializeGame` establishes the invariant for permuting shuffles. -/
theorem initializeGame_inv (pick : Nat → List CardImage) (tp : Nat)
    (sh : Option (List Card → List Card))
    (hsh : ∀ l, List.Perm (applyShuffle sh l) l) :
    Inv (initializeGame pick tp sh) := by
  unfold initializeGame
  constructor
  · intro c hc hm
    have hmem : c ∈ createCards (pick tp) :=
      ((hsh (createCards (pick tp))).mem_iff).mp hc
    have hfl := createCardsAux_flags (pick tp) 0 c hmem
    rw [hfl.2] at hm
    exact absurd hm Bool.false_ne_true
  · intro i hi
    exact absurd hi (List.not_mem_nil i)

/-- `initializeGameWithProgress` establishes the invariant for permuting
shuffles. -/
theorem initializeGameWithProgress_inv (pick : Nat → List CardImage) (tp : Nat)
    (progress : Option Int) (sh : Option (List Card → List Card))
    (hsh : ∀ l, List.Perm (applyShuffle sh l) l) :
    Inv (initializeGameWithProgress pick tp progress sh) := by
  unfold initializeGameWithProgress
  split
  next => exact initializeGame_inv pick tp sh hsh
  next p =>
    split
    next hcond =>
      constructor
      · intro c hc hm
        simp only [List.mem_map] at hc
        obtain ⟨c0, h0, rfl⟩ := hc
        cases hcont :
            ((dedupFirst ((initializeGame pick tp sh).cards.map Card.imageId)).take
              p.toNat).contains c0.imageId with
        | true => simp [hcont]
        | false =>
          simp only [hcont, Bool.false_eq_true, if_false] at hm ⊢
          have hmem : c0 ∈ createCards (pick tp) :=
            ((hsh (createCards (pick tp))).mem_iff).mp h0
          have hfl := createCardsAux_flags (pick tp) 0 c0 hmem
          rw [hfl.2] at hm
          exact absurd hm Bool.false_ne_true
      · intro i hi
        exact absurd hi (List.not_mem_nil i)
    next => exact initializeGame_inv pick tp sh hsh

/-- The engine transitions a reachable state can take. -/
inductive Step : GameState → GameState → Prop
  | select (s : GameState) (cardId : Nat) : Step s (selectCard s cardId)
  | process (s : GameState) : Step s (processMatches s)
  | check (s : GameState) : Step s (checkForMatches s)
  | clear (s : GameState) : Step s (clearSelectedCards s)
  | hide (s : GameState) : Step s (hideUnmatchedCards s)
  | preview (s : GameState) (bp : Bool) : Step s (setPreviewMode s bp)

/-- States reachable from an initial game by engine transitions; the shuffle
functions used by initialization are required to permute the deck, as the
Fisher-Yates shuffles do. -/
inductive Reachable : GameState → Prop
  | init (pick : Nat → List CardImage) (totalPairs : Nat)
      (sh : Option (List Card → List Card))
      (hsh : ∀ l, List.Perm (applyShuffle sh l) l) :
      Reachable (initializeGame pick totalPairs sh)
  | initProgress (pick : Nat → List CardImage) (totalPairs : Nat)
      (progress : Option Int) (sh : Option (List Card → List Card))
      (hsh : ∀ l, List.Perm (applyShuffle sh l) l) :
      Reachable (initializeGameWithProgress pick totalPairs progress sh)
  | step {s t : GameState} : Reachable s → Step s t → Reachable t

/-- Every engine transition preserves the invariant. -/
theorem step_inv {s t : GameState} (hst : Step s t) (h : Inv s) : Inv t := by
  cases hst with
  | select cardId => exact inv_selectCard s cardId h
  | process => exact inv_processMatches s h
  | check => exact inv_checkForMatches s h
  | clear => exact inv_clearSelectedCards s h
  | hide => exact inv_hideUnmatchedCards s h
  | preview bp => exact inv_setPreviewMode s bp h

/-- Every reachable state satisfies the invariant. -/
theorem reachable_inv {s : GameState} (h : Reachable s) : Inv s := by
  induction h with
  | init pick tp sh hsh => exact initializeGame_inv pick tp sh hsh
  | initProgress pick tp pr sh hsh =>
    exact initializeGameWithProgress_inv pick tp pr sh hsh
  | step _ hstep ih => exact step_inv hstep ih

/-- Claim C7: in every state reachable from `initializeGame` or
`initializeGameWithProgress` by any sequence of `selectCard`,
`processMatches`/`checkForMatches`, `clearSelectedCards`/`hideUnmatchedCards`
and `setPreviewMode` operations, every matched card is also revealed. -/
theorem reachable_matched_revealed (s : GameState) (h : Reachable s) :
    ∀ c ∈ s.cards, c.isMatched = true → c.isRevealed = true :=
  (reachable_inv h).1

/-- Witness for C7: the invariant holds at a concrete freshly initialized
two-pair game. -/
theorem reachable_matched_revealed_witness :
    ((initializeGame pickW 2 none).cards.all fun c => !c.isMatched || c.isRevealed) = true := by
  have h := reachable_matched_revealed (initializeGame pickW 2 none)
    (Reachable.init pickW 2 none (fun l => List.Perm.refl l))
  refine List.all_eq_true.mpr (fun c hc => ?_)
  cases hm : c.isMatched with
  | false => simp [hm]
  | true => simp [hm, h c hc hm]

end MemoGame
